import Mathlib

/-!
Shallow embedding of the utilsio SDK (react client provider and server signing
helpers) together with proofs about its specified behaviour.

Conventions used throughout the embedding:
* JavaScript strings are Lean `String`s; a value of type `string | null | undefined`
  is an `Option String` (`none` covers both `null` and `undefined`, which the
  source never distinguishes for these fields).
* JavaScript truthiness on strings (`if (s)`) is `s ≠ "" ∧ s ≠ null/undefined`;
  the helpers `jsOr`, `jsOrOpt` and `truthyStr` capture the `||`-chains and
  `if (!x)` guards of the source.
* Network and host callbacks (`fetch`, `getAuthHeadersAction`) are modelled by
  oracles: records holding the value the external world would return, so every
  operation is a pure function of the bridge state and the oracle.  The requests
  an operation issues are recorded in an `Effect` trace.
* Exceptions are `Except String`; a thrown `Error(msg)` is `Except.error msg`.
-/

namespace Utilsio

/-- JavaScript `a || b` for strings: `""` is falsy and falls through. -/
def jsOr (s fallback : String) : String :=
  if s.isEmpty then fallback else s

/-- JavaScript `a || b` where `a : string | null | undefined`. -/
def jsOrOpt (s : Option String) (fallback : String) : String :=
  match s with
  | none => fallback
  | some v => jsOr v fallback

/-- JavaScript truthiness of a `string | null | undefined` value. -/
def jsTruthy (s : Option String) : Bool :=
  match s with
  | none => false
  | some v => !v.isEmpty

/-- `truthyStr s = some v` exactly when the JS value is truthy, returning it. -/
def truthyStr (s : Option String) : Option String :=
  match s with
  | none => none
  | some v => if v.isEmpty then none else some v

/-- JavaScript falsiness of an optional string (`!x`): `undefined`, `null`, `""`. -/
def jsFalsyOptStr (s : Option String) : Bool :=
  match s with
  | none => true
  | some v => v.isEmpty

/-- JavaScript template interpolation of a possibly-undefined value:
`` `${x}` `` renders `undefined` as the string "undefined". -/
def jsTemplate (s : Option String) : String :=
  match s with
  | none => "undefined"
  | some v => v

/-- Code-unit comparison of character lists, as JavaScript's default
`Array.prototype.sort` comparator orders strings (`a < b` elementwise). -/
def charListLe : List Char → List Char → Bool
  | [], _ => true
  | _ :: _, [] => false
  | a :: as, b :: bs =>
      if a < b then true else if b < a then false else charListLe as bs

/-- The string order used by `Array.prototype.sort` on string arrays. -/
def strLe (a b : String) : Prop := charListLe a.data b.data = true

instance : DecidableRel strLe := fun _ _ => instDecidableEqBool _ _

/-! ## Signer (src/react/server/src/index.ts, src/unnamed/part_002) -/

/-- Scrypt cost parameters, as in `UtilsioScryptParams`. -/
structure UtilsioScryptParams where
  N : Nat
  r : Nat
  p : Nat
  keyLen : Nat
deriving DecidableEq

/-- Caller-supplied partial override of the scrypt parameters. -/
structure PartialScryptParams where
  N : Option Nat
  r : Option Nat
  p : Option Nat
  keyLenOverride : Option Nat
deriving DecidableEq

def DEFAULT_SCRYPT_PARAMS : UtilsioScryptParams :=
  { N := 16384, r := 8, p := 1, keyLen := 32 }

/-- The object spread `{...DEFAULT_SCRYPT_PARAMS, ...(params || {})}`. -/
def mergeScryptParams (params : Option PartialScryptParams) : UtilsioScryptParams :=
  match params with
  | none => DEFAULT_SCRYPT_PARAMS
  | some p =>
      { N := p.N.getD DEFAULT_SCRYPT_PARAMS.N
        r := p.r.getD DEFAULT_SCRYPT_PARAMS.r
        p := p.p.getD DEFAULT_SCRYPT_PARAMS.p
        keyLen := p.keyLenOverride.getD DEFAULT_SCRYPT_PARAMS.keyLen }

/-- `deriveAppHashHex` from the server package.  The scrypt primitive itself
(including the hex-decoding of the salt into bytes, `Buffer.from(salt, "hex")`)
is a standard-library cryptographic call and is abstracted as the function
argument `scrypt`; the embedded logic is the validation and parameter merging
that the SDK itself performs before invoking it. -/
def deriveAppHashHex (scrypt : String → String → UtilsioScryptParams → String)
    (appSecret salt : String) (params : Option PartialScryptParams) :
    Except String String :=
  if appSecret.isEmpty then Except.error "appSecret is required"
  else if salt.isEmpty then Except.error "salt is required"
  else Except.ok (scrypt appSecret salt (mergeScryptParams params))

/-- A JavaScript `timestamp: number | string` argument, which callers may also
leave `undefined` or pass as `null` (the source guards against both). Numbers
are modelled as integers (the SDK only ever produces integral Unix seconds). -/
inductive JsTimestamp where
  | num (n : Int)
  | str (s : String)
  | undef
  | nullv
deriving DecidableEq

/-- JavaScript `String(timestamp)`. -/
def jsTimestampToString : JsTimestamp → String
  | JsTimestamp.num n => toString n
  | JsTimestamp.str s => s
  | JsTimestamp.undef => "undefined"
  | JsTimestamp.nullv => "null"

/-- `buildSignatureMessage` from the server package: validates the components
and produces the canonical delimited message
`deviceId-appId-timestamp[-additionalData]`. -/
def buildSignatureMessage (deviceId appId : String) (timestamp : JsTimestamp)
    (additionalData : Option String) : Except String String :=
  if deviceId.isEmpty then Except.error "deviceId is required"
  else if appId.isEmpty then Except.error "appId is required"
  else if timestamp = JsTimestamp.undef ∨ timestamp = JsTimestamp.nullv ∨
      timestamp = JsTimestamp.str "" then Except.error "timestamp is required"
  else
    let ts := jsTimestampToString timestamp
    Except.ok (deviceId ++ "-" ++ appId ++ "-" ++ ts ++
      (match additionalData with
       | some ad => if ad.isEmpty then "" else "-" ++ ad
       | none => ""))

/-- `signRequest` from the server package.  The HMAC-SHA256 primitive is
abstracted as the function argument `hmac` (key, message ↦ hex digest); the
embedded logic is the key validation and the canonical-message construction. -/
def signRequest (hmac : String → String → String) (appHashHex : String)
    (deviceId appId : String) (timestamp : JsTimestamp)
    (additionalData : Option String) : Except String String :=
  if appHashHex.isEmpty then Except.error "appHashHex is required"
  else
    (buildSignatureMessage deviceId appId timestamp additionalData).map
      (fun message => hmac appHashHex message)

/-! ## URL construction helpers

`encodeURIComponent` and the `URLSearchParams` serializer are ECMAScript /
WHATWG builtins invoked by the provider; they are embedded here byte-for-byte
(percent-encoding of UTF-8 bytes with the respective unreserved sets).  The
`new URL(path)` + `searchParams.set(...)` idiom of the source, applied to an
absolute URL without pre-existing query or fragment, serializes to
`path ++ "?" ++ params`, which is how `urlWithQuery` models it. -/

def hexDigitChar (n : Nat) : Char :=
  ['0', '1', '2', '3', '4', '5', '6', '7', '8', '9',
   'A', 'B', 'C', 'D', 'E', 'F'].getD n '0'

/-- Percent-encoding of a single byte, uppercase hex. -/
def percentByte (b : Nat) : String :=
  String.mk ['%', hexDigitChar (b / 16), hexDigitChar (b % 16)]

/-- UTF-8 encoding of a character as a list of byte values. -/
def utf8Bytes (c : Char) : List Nat :=
  let n := c.toNat
  if n < 128 then [n]
  else if n < 2048 then
    [192 + n / 64, 128 + n % 64]
  else if n < 65536 then
    [224 + n / 4096, 128 + (n / 64) % 64, 128 + n % 64]
  else
    [240 + n / 262144, 128 + (n / 4096) % 64, 128 + (n / 64) % 64, 128 + n % 64]

/-- The characters `encodeURIComponent` leaves unescaped. -/
def isUriUnreserved (c : Char) : Bool :=
  c.isAlpha || c.isDigit || c = '-' || c = '_' || c = '.' || c = '!' ||
    c = '~' || c = '*' || c = Char.ofNat 39 || c = '(' || c = ')'

def encodeURIComponent (s : String) : String :=
  String.join (s.data.map fun c =>
    if isUriUnreserved c then String.singleton c
    else String.join ((utf8Bytes c).map percentByte))

/-- One character under the `application/x-www-form-urlencoded` serializer
used by `URLSearchParams.toString`. -/
def formUrlEncodeChar (c : Char) : String :=
  if c = ' ' then "+"
  else if c.isAlpha || c.isDigit || c = '-' || c = '.' || c = '_' || c = '*' then
    String.singleton c
  else String.join ((utf8Bytes c).map percentByte)

def formUrlEncode (s : String) : String :=
  String.join (s.data.map formUrlEncodeChar)

def serializeSearchParams (q : List (String × String)) : String :=
  String.intercalate "&" (q.map fun kv => formUrlEncode kv.1 ++ "=" ++ formUrlEncode kv.2)

/-- `new URL(path)` with `searchParams.set` calls applied in order, then
`toString()`, for an absolute `path` with no query or fragment of its own. -/
def urlWithQuery (path : String) (q : List (String × String)) : String :=
  path ++ "?" ++ serializeSearchParams q

/-- `normalizeBaseUrl` from the provider: `url.replace(/\/+$/, "")`, i.e.
removes every trailing `/`. -/
def normalizeBaseUrl (url : String) : String :=
  String.mk ((url.data.reverse.dropWhile (fun c => c = '/')).reverse)

/-! ## Data model (src/unnamed/part_001) -/

structure UtilsioUser where
  id : String
  email : Option String
  phone : Option String
  user_metadata : List (String × String)
  created_at : String
deriving DecidableEq

structure UtilsioSubscription where
  id : String
  amountPerDay : String
  createdAt : String
  cancelledAt : Option String
  isActive : Bool
deriving DecidableEq

/-- The subscription record as it appears in the GET response payload
(`{id, amountPerDay, createdAt, cancelledAt?}`). -/
structure RawSubscription where
  id : String
  amountPerDay : String
  createdAt : String
  cancelledAt : Option String
deriving DecidableEq

/-- Response payload of `GET {base}/api/v1/subscription`. -/
structure SubPayload where
  success : Bool
  subscription : Option RawSubscription
  error : Option String
deriving DecidableEq

/-- One entry of the `results` array in the DELETE response payload. -/
structure CancelResultItem where
  success : Bool
  error : Option String
deriving DecidableEq

/-- Response payload of `DELETE {base}/api/v1/subscription`. -/
structure CancelPayload where
  success : Bool
  results : Option (List CancelResultItem)
  error : Option String
deriving DecidableEq

/-- Result of the injected `getAuthHeadersAction` callback. -/
structure AuthHeaders where
  signature : String
  timestamp : String
deriving DecidableEq

/-- Outcome of a `fetch`: a parsed 2xx body, or a non-ok response carrying the
status and the body text read by `res.text()`. -/
inductive FetchResult (α : Type) where
  | ok (body : α)
  | httpError (status : Nat) (text : String)
deriving DecidableEq

/-- Headers of the cancel DELETE request; signature and timestamp are present
only on the client-signed path. -/
structure DeleteHeaders where
  contentType : String
  signature : Option String
  timestamp : Option String
deriving DecidableEq

/-- JSON body of the cancel DELETE request (`bodyData` in the source); the
optional fields are absent unless the respective path assigns them. -/
structure CancelBody where
  userId : String
  appId : String
  subscriptionIds : List String
  deviceId : Option String
  signatureCallbackUrl : Option String
  useSafariFallback : Option Bool
deriving DecidableEq

/-- Requests the bridge issues to the outside world, in order. -/
inductive Effect where
  | getAuthHeaders (deviceId : String) (additionalData : Option String)
  | httpGet (url : String) (signature : String) (timestamp : String)
  | httpDelete (url : String) (headers : DeleteHeaders) (body : CancelBody)
  | postMessage (msgType : String)
  | navigate (url : String)
deriving DecidableEq

/-- Provider configuration (`UtilsioProviderProps` minus React specifics). -/
structure Config where
  utilsioBaseUrl : String
  appId : String
  parentOrigin : Option String
deriving DecidableEq

/-- The session-bridge state (`UtilsioState` plus the internal `embedReady`). -/
structure BridgeState where
  embedReady : Bool
  user : Option UtilsioUser
  deviceId : Option String
  currentSubscription : Option UtilsioSubscription
  loading : Bool
  error : Option String
deriving DecidableEq

/-- The `useState` initial values of a freshly mounted provider. -/
def initialState : BridgeState :=
  { embedReady := false, user := none, deviceId := none,
    currentSubscription := none, loading := true, error := none }

/-- `baseUrl = useMemo(() => normalizeBaseUrl(utilsioBaseUrl), ...)`. -/
def baseUrl (cfg : Config) : String := normalizeBaseUrl cfg.utilsioBaseUrl

/-- `targetOrigin = useMemo(() => parentOrigin || "*", ...)`. -/
def targetOrigin (cfg : Config) : String := jsOrOpt cfg.parentOrigin "*"

def subscriptionUrl (cfg : Config) : String :=
  baseUrl cfg ++ "/api/v1/subscription?appId=" ++ encodeURIComponent cfg.appId

def embedUrl (cfg : Config) : String :=
  baseUrl cfg ++ "/embed?parentOrigin=" ++ encodeURIComponent (targetOrigin cfg)

/-- Inbound window messages handled by the provider's listener. -/
inductive EmbedMessage where
  | ready
  | auth (user : Option UtilsioUser) (deviceId : Option String)
  | other (msgType : String)
deriving DecidableEq

/-! ## Session-bridge operations (src/unnamed/part_000) -/

/-- External-world responses consumed by one `getSubscription` call: the value
of `await getAuthHeadersAction({deviceId})` (which may throw) and the outcome
of the GET `fetch`. -/
structure GetOracle where
  auth : Except String AuthHeaders
  response : FetchResult SubPayload

/-- External-world responses consumed by one `cancelSubscription` call; the
trailing `refresh()` consumes its own `GetOracle`. -/
structure CancelOracle where
  auth : Except String AuthHeaders
  response : FetchResult CancelPayload
  refreshOracle : GetOracle

/-- The spread `{...payload.subscription, cancelledAt: null, isActive: true}`. -/
def toActiveSubscription (raw : RawSubscription) : UtilsioSubscription :=
  { id := raw.id, amountPerDay := raw.amountPerDay, createdAt := raw.createdAt,
    cancelledAt := none, isActive := true }

/-- `getSubscription` from the provider: clears `error`, returns early when
`deviceId` is falsy, otherwise obtains auth headers, issues the signed GET and
surfaces the subscription only when it has no (truthy) `cancelledAt`. -/
def getSubscription (cfg : Config) (s : BridgeState) (o : GetOracle) :
    BridgeState × List Effect × Except String (Option UtilsioSubscription) :=
  let s0 := { s with error := none }
  match truthyStr s0.deviceId with
  | none => ({ s0 with currentSubscription := none }, [], Except.ok none)
  | some d =>
    match o.auth with
    | Except.error e => (s0, [Effect.getAuthHeaders d none], Except.error e)
    | Except.ok hdrs =>
      let effs := [Effect.getAuthHeaders d none,
        Effect.httpGet (subscriptionUrl cfg) hdrs.signature hdrs.timestamp]
      match o.response with
      | FetchResult.httpError status text =>
          (s0, effs, Except.error
            (jsOr text ("Failed to get subscription (" ++ toString status ++ ")")))
      | FetchResult.ok payload =>
          if payload.success then
            match payload.subscription with
            | some sub =>
                if jsFalsyOptStr sub.cancelledAt then
                  let act := toActiveSubscription sub
                  ({ s0 with currentSubscription := some act }, effs, Except.ok (some act))
                else ({ s0 with currentSubscription := none }, effs, Except.ok none)
            | none => ({ s0 with currentSubscription := none }, effs, Except.ok none)
          else (s0, effs, Except.error (jsOrOpt payload.error "Failed to get subscription"))

/-- `refresh` from the provider: `setLoading(true)`, `try getSubscription`,
`catch` records the message in `error`, `finally setLoading(false)`.  The
`Except Unit` component witnesses that the call itself never throws. -/
def refresh (cfg : Config) (s : BridgeState) (o : GetOracle) :
    BridgeState × List Effect × Except String Unit :=
  match getSubscription cfg { s with loading := true } o with
  | (s1, effs, Except.ok _) => ({ s1 with loading := false }, effs, Except.ok ())
  | (s1, effs, Except.error e) =>
      ({ s1 with error := some e, loading := false }, effs, Except.ok ())

/-- The `useEffect([deviceId, refresh])` body: when `deviceId` is falsy it only
clears `currentSubscription` and returns; otherwise it calls `refresh()`. -/
def deviceIdEffect (cfg : Config) (s : BridgeState) (o : GetOracle) :
    BridgeState × List Effect :=
  match truthyStr s.deviceId with
  | none => ({ s with currentSubscription := none }, [])
  | some _ =>
      match refresh cfg s o with
      | (s1, effs, _) => (s1, effs)

/-- The window-message listener of the provider. -/
def handleMessage (s : BridgeState) (m : EmbedMessage) : BridgeState :=
  match m with
  | EmbedMessage.ready => { s with embedReady := true }
  | EmbedMessage.auth u d => { s with user := u, deviceId := d }
  | EmbedMessage.other _ => s

/-- Receiving an `utilsio:embed:auth` message and the deviceId effect that
React then runs: the listener stores `user` and `deviceId`, after which the
`[deviceId, refresh]` effect fires. -/
def processAuth (cfg : Config) (s : BridgeState) (u : Option UtilsioUser)
    (d : Option String) (o : GetOracle) : BridgeState × List Effect :=
  deviceIdEffect cfg (handleMessage s (EmbedMessage.auth u d)) o

/-- `[user.id, ...subscriptionIds].sort().join(",")` from `cancelSubscription`:
JavaScript's default sort is the code-unit string order `strLe`. -/
def cancelAdditionalData (userId : String) (subscriptionIds : List String) : String :=
  String.intercalate "," (List.insertionSort strLe (userId :: subscriptionIds))

/-- Shared tail of `cancelSubscription`: the DELETE `fetch`, response checks,
error extraction from the `results` array, and the final `refresh()`. -/
def finishCancel (cfg : Config) (s0 : BridgeState) (effs : List Effect)
    (o : CancelOracle) : BridgeState × List Effect × Except String Unit :=
  match o.response with
  | FetchResult.httpError status text =>
      (s0, effs, Except.error
        (jsOr text ("Failed to cancel subscription (" ++ toString status ++ ")")))
  | FetchResult.ok payload =>
      if payload.success then
        match refresh cfg s0 o.refreshOracle with
        | (s1, reffs, _) => (s1, effs ++ reffs, Except.ok ())
      else
        let errors : Option (List String) := payload.results.map (fun rs =>
          ((rs.filter (fun r => !r.success)).filterMap CancelResultItem.error).filter
            (fun e => !e.isEmpty))
        let errorMsg := jsOrOpt (errors.bind List.head?)
          (jsOrOpt payload.error "Failed to cancel subscription")
        (s0, effs, Except.error errorMsg)

/-- `cancelSubscription(subscriptionIds, appUrl?)` from the provider. -/
def cancelSubscription (cfg : Config) (s : BridgeState)
    (subscriptionIds : List String) (appUrl : Option String) (o : CancelOracle) :
    BridgeState × List Effect × Except String Unit :=
  let s0 := { s with error := none }
  match s0.user with
  | none => (s0, [], Except.error "User must be authenticated to cancel subscription")
  | some user =>
    match truthyStr s0.deviceId with
    | some d =>
      let additionalData := cancelAdditionalData user.id subscriptionIds
      match o.auth with
      | Except.error e => (s0, [Effect.getAuthHeaders d (some additionalData)], Except.error e)
      | Except.ok hdrs =>
          let headers : DeleteHeaders :=
            { contentType := "application/json",
              signature := some hdrs.signature, timestamp := some hdrs.timestamp }
          let body : CancelBody :=
            { userId := user.id, appId := cfg.appId, subscriptionIds := subscriptionIds,
              deviceId := some d, signatureCallbackUrl := none, useSafariFallback := none }
          finishCancel cfg s0
            [Effect.getAuthHeaders d (some additionalData),
             Effect.httpDelete (baseUrl cfg ++ "/api/v1/subscription") headers body] o
    | none =>
      match truthyStr appUrl with
      | some a =>
          let headers : DeleteHeaders :=
            { contentType := "application/json", signature := none, timestamp := none }
          let body : CancelBody :=
            { userId := user.id, appId := cfg.appId, subscriptionIds := subscriptionIds,
              deviceId := none,
              signatureCallbackUrl := some (a ++ "/api/signature-callback"),
              useSafariFallback := some true }
          finishCancel cfg s0
            [Effect.httpDelete (baseUrl cfg ++ "/api/v1/subscription") headers body] o
      | none => (s0, [], Except.error "Either deviceId or appUrl is required to cancel subscription")

/-- Argument object of `redirectToConfirm`. -/
structure RedirectParams where
  appId : String
  appName : String
  amountPerDay : String
  appLogo : Option String
  appUrl : Option String
  nextSuccess : String
  nextCancelled : String
deriving DecidableEq

/-- `redirectToConfirm(params)` from the provider: with a falsy `deviceId` it
navigates to the init URL (query parameters set in source order, including a
`signatureCallbackUrl` built from `params.appUrl` by raw template
interpolation); otherwise it obtains a signature and navigates to the confirm
URL. -/
def redirectToConfirm (cfg : Config) (s : BridgeState) (params : RedirectParams)
    (auth : Except String AuthHeaders) : BridgeState × List Effect × Except String Unit :=
  match truthyStr s.deviceId with
  | none =>
      let callbackUrl := jsTemplate params.appUrl ++ "/api/signature-callback"
      let q := [("appId", params.appId), ("appName", params.appName),
          ("amountPerDay", params.amountPerDay)] ++
        (match truthyStr params.appUrl with
         | some a => [("appUrl", a)]
         | none => []) ++
        (match truthyStr params.appLogo with
         | some l => [("appLogo", l)]
         | none => []) ++
        [("nextSuccess", params.nextSuccess), ("nextCancelled", params.nextCancelled),
         ("signatureCallbackUrl", callbackUrl)]
      (s, [Effect.navigate (urlWithQuery (baseUrl cfg ++ "/api/v1/subscription/init") q)],
        Except.ok ())
  | some d =>
      match auth with
      | Except.error e =>
          (s, [Effect.getAuthHeaders d (some params.amountPerDay)], Except.error e)
      | Except.ok hdrs =>
          let q := [("appId", params.appId), ("appName", params.appName),
              ("amountPerDay", params.amountPerDay), ("deviceId", d),
              ("signature", hdrs.signature), ("timestamp", hdrs.timestamp)] ++
            (match truthyStr params.appLogo with
             | some l => [("appLogo", l)]
             | none => []) ++
            (match truthyStr params.appUrl with
             | some a => [("appUrl", a)]
             | none => []) ++
            [("nextSuccess", params.nextSuccess), ("nextCancelled", params.nextCancelled)]
          (s, [Effect.getAuthHeaders d (some params.amountPerDay),
            Effect.navigate (urlWithQuery (baseUrl cfg ++ "/confirm") q)], Except.ok ())

/-- The `useEffect([baseUrl, appId])` body: `setError(null); setLoading(true)`. -/
def configResetEffect (s : BridgeState) : BridgeState :=
  { s with error := none, loading := true }

/-- One state transition of the session bridge: any inbound message, any
effect firing, or any application-invoked operation, under arbitrary
external-world responses. -/
inductive Step (cfg : Config) (s : BridgeState) : BridgeState → Prop where
  | msg (m : EmbedMessage) : Step cfg s (handleMessage s m)
  | configReset : Step cfg s (configResetEffect s)
  | deviceEffect (o : GetOracle) : Step cfg s (deviceIdEffect cfg s o).1
  | refreshCall (o : GetOracle) : Step cfg s (refresh cfg s o).1
  | cancelCall (ids : List String) (appUrl : Option String) (o : CancelOracle) :
      Step cfg s (cancelSubscription cfg s ids appUrl o).1
  | redirectCall (params : RedirectParams) (auth : Except String AuthHeaders) :
      Step cfg s (redirectToConfirm cfg s params auth).1

/-- Normalization invariant on the surfaced subscription. -/
def subInvariant (s : BridgeState) : Prop :=
  ∀ sub, s.currentSubscription = some sub → sub.cancelledAt = none ∧ sub.isActive = true

/-! ## Theorems -/

/-- C1 (code bug): the provider's own comments and the spec say that an
inbound `auth` message with `deviceId=null` settles the bridge with
`loading=false` and `currentSubscription=null` and without any subscription
fetch.  The code clears `currentSubscription` and issues no request, but the
`[deviceId, refresh]` effect returns before calling `refresh()` when
`deviceId` is falsy, so nothing ever sets `loading` to `false`: from the
freshly mounted state (`loading=true`) the bridge stays `loading=true`. -/
theorem processAuth_null_deviceId_divergence :
    (∀ (cfg : Config) (s : BridgeState) (u : Option UtilsioUser) (o : GetOracle),
      (processAuth cfg s u none o).1.loading = s.loading ∧
      (processAuth cfg s u none o).1.currentSubscription = none ∧
      (processAuth cfg s u none o).2 = ([] : List Effect)) ∧
    (∀ o : GetOracle,
      (processAuth (Config.mk "https://pay.example" "app-1" none)
          initialState none none o).1.loading = true) := by
  constructor
  · intro cfg s u o
    exact ⟨rfl, rfl, rfl⟩
  · intro o
    rfl

/-- C3: for non-empty `deviceId`, `appId` and a present, non-empty
`timestamp`, `buildSignatureMessage` produces
`"{deviceId}-{appId}-{timestamp}"` with the timestamp stringified exactly as
given, appending `"-{additionalData}"` exactly when `additionalData` is
provided and non-empty; in particular on the two literal examples of the
specification. -/
theorem buildSignatureMessage_format :
    (∀ (d a : String) (t : JsTimestamp), d ≠ "" → a ≠ "" →
      t ≠ JsTimestamp.undef → t ≠ JsTimestamp.nullv → t ≠ JsTimestamp.str "" →
      buildSignatureMessage d a t none =
          Except.ok (d ++ "-" ++ a ++ "-" ++ jsTimestampToString t) ∧
      buildSignatureMessage d a t (some "") =
          Except.ok (d ++ "-" ++ a ++ "-" ++ jsTimestampToString t) ∧
      ∀ ad, ad ≠ "" → buildSignatureMessage d a t (some ad) =
          Except.ok (d ++ "-" ++ a ++ "-" ++ jsTimestampToString t ++ "-" ++ ad)) ∧
    buildSignatureMessage "d1" "a1" (JsTimestamp.num 1000) none = Except.ok "d1-a1-1000" ∧
    buildSignatureMessage "d1" "a1" (JsTimestamp.num 1000) (some "extra") =
      Except.ok "d1-a1-1000-extra" := by
  refine ⟨?_, rfl, rfl⟩
  intro d a t hd ha h1 h2 h3
  have hd' : d.isEmpty = false := by
    cases hde : d.isEmpty
    · rfl
    · exact absurd ((String.isEmpty_iff _).mp hde) hd
  have ha' : a.isEmpty = false := by
    cases hae : a.isEmpty
    · rfl
    · exact absurd ((String.isEmpty_iff _).mp hae) ha
  have ht : ¬(t = JsTimestamp.undef ∨ t = JsTimestamp.nullv ∨ t = JsTimestamp.str "") := by
    rintro (h | h | h)
    · exact h1 h
    · exact h2 h
    · exact h3 h
  have hemp : ("" : String).isEmpty = true := rfl
  refine ⟨?_, ?_, ?_⟩
  · simp [buildSignatureMessage, hd', ha', ht]
  · simp [buildSignatureMessage, hd', ha', ht, hemp]
  · intro ad had
    have had' : ad.isEmpty = false := by
      cases hade : ad.isEmpty
      · rfl
      · exact absurd ((String.isEmpty_iff _).mp hade) had
    simp [buildSignatureMessage, hd', ha', ht, had', String.append_assoc]

/-- Witness for C3 at a concrete input. -/
theorem buildSignatureMessage_format_witness :
    buildSignatureMessage "dx" "ax" (JsTimestamp.str "7") (some "ad") =
      Except.ok "dx-ax-7-ad" := by
  have h := (buildSignatureMessage_format.1 "dx" "ax" (JsTimestamp.str "7")
    (by decide) (by decide) (by decide) (by decide) (by decide)).2.2 "ad" (by decide)
  have he : ("dx" ++ "-" ++ "ax" ++ "-" ++ jsTimestampToString (JsTimestamp.str "7")
      ++ "-" ++ "ad") = "dx-ax-7-ad" := by decide
  rw [he] at h
  exact h

/-- C8: the signing pipeline rejects missing inputs before any cryptographic
work: `deriveAppHashHex` fails on an empty `appSecret` or `salt`,
`buildSignatureMessage` fails on a missing or empty `deviceId`, `appId` or
`timestamp`, and `signRequest` fails on an empty `appHashHex` — in each case
the resulting error is a fixed validation message that does not depend on the
abstracted cryptographic primitive (`scrypt` / `hmac`), which is therefore
never consulted. -/
theorem signer_validation_errors :
    (∀ scrypt salt params,
      deriveAppHashHex scrypt "" salt params = Except.error "appSecret is required") ∧
    (∀ scrypt appSecret params, appSecret ≠ "" →
      deriveAppHashHex scrypt appSecret "" params = Except.error "salt is required") ∧
    (∀ scrypt appSecret salt params, appSecret = "" ∨ salt = "" →
      ∃ msg, deriveAppHashHex scrypt appSecret salt params = Except.error msg) ∧
    (∀ (d a : String) (t : JsTimestamp) (ad : Option String),
      d = "" ∨ a = "" ∨ t = JsTimestamp.undef ∨ t = JsTimestamp.nullv ∨ t = JsTimestamp.str "" →
      ∃ msg, buildSignatureMessage d a t ad = Except.error msg) ∧
    (∀ hmac (d a : String) (t : JsTimestamp) (ad : Option String),
      signRequest hmac "" d a t ad = Except.error "appHashHex is required") := by
  refine ⟨?_, ?_, ?_, ?_, ?_⟩
  · intro scrypt salt params
    rfl
  · intro scrypt appSecret params h
    have h' : appSecret.isEmpty = false := by
      cases he : appSecret.isEmpty
      · rfl
      · exact absurd ((String.isEmpty_iff _).mp he) h
    have hemp : ("" : String).isEmpty = true := rfl
    simp [deriveAppHashHex, h', hemp]
  · intro scrypt appSecret salt params h
    by_cases hsec : appSecret.isEmpty
    · exact ⟨"appSecret is required", by simp [deriveAppHashHex, hsec]⟩
    · have hsalt : salt = "" := by
        rcases h with h | h
        · exact absurd ((String.isEmpty_iff _).mpr h) hsec
        · exact h
      subst hsalt
      have hemp : ("" : String).isEmpty = true := rfl
      exact ⟨"salt is required", by simp [deriveAppHashHex, hsec, hemp]⟩
  · intro d a t ad h
    by_cases hd : d.isEmpty
    · exact ⟨"deviceId is required", by simp [buildSignatureMessage, hd]⟩
    · by_cases ha : a.isEmpty
      · exact ⟨"appId is required", by simp [buildSignatureMessage, hd, ha]⟩
      · have ht : t = JsTimestamp.undef ∨ t = JsTimestamp.nullv ∨ t = JsTimestamp.str "" := by
          rcases h with h | h | h
          · exact absurd ((String.isEmpty_iff _).mpr h) hd
          · exact absurd ((String.isEmpty_iff _).mpr h) ha
          · exact h
        exact ⟨"timestamp is required", by simp [buildSignatureMessage, hd, ha, ht]⟩
  · intro hmac d a t ad
    rfl

/-- Witness for C8 at concrete inputs. -/
theorem signer_validation_errors_witness :
    (∃ msg, deriveAppHashHex (fun _ _ _ => "deadbeef") "" "ab" none = Except.error msg) ∧
    (∃ msg, buildSignatureMessage "" "a1" (JsTimestamp.num 5) none = Except.error msg) ∧
    deriveAppHashHex (fun _ _ _ => "deadbeef") "secret" "" none =
      Except.error "salt is required" :=
  ⟨signer_validation_errors.2.2.1 (fun _ _ _ => "deadbeef") "" "ab" none (Or.inl rfl),
   signer_validation_errors.2.2.2.1 "" "a1" (JsTimestamp.num 5) none (Or.inl rfl),
   signer_validation_errors.2.1 (fun _ _ _ => "deadbeef") "secret" none (by decide)⟩

/-! ### Base-URL normalization (C10) -/

theorem dropWhile_self_idem {α : Type} (p : α → Bool) (l : List α) :
    List.dropWhile p (List.dropWhile p l) = List.dropWhile p l := by
  induction l with
  | nil => rfl
  | cons a t ih =>
    cases hp : p a
    · simp [List.dropWhile, hp]
    · simp [List.dropWhile, hp, ih]

theorem dropWhile_replicate_eq_nil {α : Type} (a : α) (p : α → Bool) (hp : p a = true)
    (k : Nat) : List.dropWhile p (List.replicate k a) = [] := by
  induction k with
  | zero => rfl
  | succ n ih => simp [List.replicate_succ, List.dropWhile, hp, ih]

/-- The string made of `k` slashes. -/
def slashes (k : Nat) : String := String.mk (List.replicate k '/')

theorem normalizeBaseUrl_append_slashes (u : String) (k : Nat) :
    normalizeBaseUrl (u ++ slashes k) = normalizeBaseUrl u := by
  unfold normalizeBaseUrl slashes
  have hdata : (u ++ String.mk (List.replicate k '/')).data =
      u.data ++ List.replicate k '/' := String.data_append u _
  rw [hdata, List.reverse_append, List.reverse_replicate, List.dropWhile_append,
    dropWhile_replicate_eq_nil '/' (fun c => c = '/') (by decide) k]
  simp

theorem normalizeBaseUrl_idem (u : String) :
    normalizeBaseUrl (normalizeBaseUrl u) = normalizeBaseUrl u := by
  unfold normalizeBaseUrl
  rw [List.reverse_reverse, dropWhile_self_idem]

/-- Equal normalized base URLs give equal constructed URLs everywhere. -/
theorem urls_congr (b1 b2 : String) (hb : normalizeBaseUrl b1 = normalizeBaseUrl b2)
    (appId : String) (po : Option String) :
    baseUrl (Config.mk b1 appId po) = baseUrl (Config.mk b2 appId po) ∧
    embedUrl (Config.mk b1 appId po) = embedUrl (Config.mk b2 appId po) ∧
    subscriptionUrl (Config.mk b1 appId po) = subscriptionUrl (Config.mk b2 appId po) ∧
    (∀ s params auth, redirectToConfirm (Config.mk b1 appId po) s params auth =
        redirectToConfirm (Config.mk b2 appId po) s params auth) := by
  have hbase : baseUrl (Config.mk b1 appId po) = baseUrl (Config.mk b2 appId po) := hb
  refine ⟨hbase, ?_, ?_, ?_⟩
  · unfold embedUrl
    rw [hbase]
    rfl
  · unfold subscriptionUrl
    rw [hbase]
  · intro s params auth
    unfold redirectToConfirm
    rw [hbase]

/-- C10: every URL the bridge constructs (embed URL, subscription endpoint,
confirm/init redirect URLs) factors through `normalizeBaseUrl`, which strips
every trailing `/`; hence appending any numbers of trailing slashes to the
same base URL yields identical constructed URLs, and the normalization is
idempotent. -/
theorem normalizeBaseUrl_url_stability :
    (∀ u, normalizeBaseUrl (normalizeBaseUrl u) = normalizeBaseUrl u) ∧
    (∀ u k1 k2 appId po,
      baseUrl (Config.mk (u ++ slashes k1) appId po) =
        baseUrl (Config.mk (u ++ slashes k2) appId po) ∧
      embedUrl (Config.mk (u ++ slashes k1) appId po) =
        embedUrl (Config.mk (u ++ slashes k2) appId po) ∧
      subscriptionUrl (Config.mk (u ++ slashes k1) appId po) =
        subscriptionUrl (Config.mk (u ++ slashes k2) appId po) ∧
      (∀ s params auth,
        redirectToConfirm (Config.mk (u ++ slashes k1) appId po) s params auth =
          redirectToConfirm (Config.mk (u ++ slashes k2) appId po) s params auth)) := by
  refine ⟨normalizeBaseUrl_idem, ?_⟩
  intro u k1 k2 appId po
  exact urls_congr (u ++ slashes k1) (u ++ slashes k2)
    ((normalizeBaseUrl_append_slashes u k1).trans
      (normalizeBaseUrl_append_slashes u k2).symm) appId po

/-! ### The JavaScript string sort order is a total order (C2) -/

theorem charListLe_total_aux : ∀ l1 l2 : List Char,
    charListLe l1 l2 = true ∨ charListLe l2 l1 = true := by
  intro l1
  induction l1 with
  | nil => intro l2; left; rfl
  | cons a as ih =>
    intro l2
    cases l2 with
    | nil => right; rfl
    | cons b bs =>
      by_cases hab : a < b
      · left
        simp [charListLe, hab]
      · by_cases hba : b < a
        · right
          simp [charListLe, hba]
        · have he : a = b := le_antisymm (not_lt.mp hba) (not_lt.mp hab)
          subst he
          rcases ih bs with h | h
          · left
            simp [charListLe, lt_irrefl, h]
          · right
            simp [charListLe, lt_irrefl, h]

theorem charListLe_trans_aux : ∀ l1 l2 l3 : List Char,
    charListLe l1 l2 = true → charListLe l2 l3 = true → charListLe l1 l3 = true := by
  intro l1
  induction l1 with
  | nil => intro l2 l3 _ _; rfl
  | cons a as ih =>
    intro l2 l3 h12 h23
    cases l2 with
    | nil => simp [charListLe] at h12
    | cons b bs =>
      cases l3 with
      | nil => simp [charListLe] at h23
      | cons c cs =>
        by_cases hab : a < b
        · by_cases hbc : b < c
          · have hac : a < c := lt_trans hab hbc
            simp [charListLe, hac]
          · by_cases hcb : c < b
            · simp [charListLe, hbc, hcb] at h23
            · have he : b = c := le_antisymm (not_lt.mp hcb) (not_lt.mp hbc)
              subst he
              simp [charListLe, hab]
        · by_cases hba : b < a
          · simp [charListLe, hab, hba] at h12
          · have he : a = b := le_antisymm (not_lt.mp hba) (not_lt.mp hab)
            subst he
            simp [charListLe, lt_irrefl] at h12
            by_cases hac : a < c
            · simp [charListLe, hac]
            · by_cases hca : c < a
              · simp [charListLe, hac, hca] at h23
              · have he2 : a = c := le_antisymm (not_lt.mp hca) (not_lt.mp hac)
                subst he2
                simp [charListLe, lt_irrefl] at h23 ⊢
                exact ih bs cs h12 h23

theorem charListLe_antisymm_aux : ∀ l1 l2 : List Char,
    charListLe l1 l2 = true → charListLe l2 l1 = true → l1 = l2 := by
  intro l1
  induction l1 with
  | nil =>
    intro l2 h12 h21
    cases l2 with
    | nil => rfl
    | cons b bs => simp [charListLe] at h21
  | cons a as ih =>
    intro l2 h12 h21
    cases l2 with
    | nil => simp [charListLe] at h12
    | cons b bs =>
      by_cases hab : a < b
      · have hnba : ¬b < a := lt_asymm hab
        simp [charListLe, hab, hnba] at h21
      · by_cases hba : b < a
        · simp [charListLe, hab, hba] at h12
        · have he : a = b := le_antisymm (not_lt.mp hba) (not_lt.mp hab)
          subst he
          simp [charListLe, lt_irrefl] at h12 h21
          rw [ih bs h12 h21]

theorem strLe_total (a b : String) : strLe a b ∨ strLe b a :=
  charListLe_total_aux a.data b.data

theorem strLe_trans {a b c : String} (h1 : strLe a b) (h2 : strLe b c) : strLe a c :=
  charListLe_trans_aux a.data b.data c.data h1 h2

theorem strLe_antisymm {a b : String} (h1 : strLe a b) (h2 : strLe b a) : a = b :=
  congrArg String.mk (charListLe_antisymm_aux a.data b.data h1 h2)

/-- The effect trace of `finishCancel` always starts with the effects issued
before the response was processed. -/
theorem finishCancel_effects (cfg : Config) (s0 : BridgeState) (effs : List Effect)
    (o : CancelOracle) : ∃ t, (finishCancel cfg s0 effs o).2.1 = effs ++ t := by
  unfold finishCancel
  rcases o with ⟨oauth, oresp, oro⟩
  cases oresp with
  | httpError st tx => exact ⟨[], by simp⟩
  | ok payload =>
    cases hs : payload.success
    · exact ⟨[], by simp [hs]⟩
    · rcases hr : refresh cfg s0 oro with ⟨s1, reffs, v⟩
      exact ⟨reffs, by simp [hs, hr]⟩

/-- C2: in the deviceId-known path, the `additionalData` that
`cancelSubscription` hands to the signing callback is the comma-join of the
sorted combined list `[user.id, ...subscriptionIds]` (a sorted permutation of
that list under the JavaScript string order), it is invariant under
permutations of `subscriptionIds`, and on `user.id="u1"`,
`subscriptionIds=["s2","s1"]` it is `"s1,s2,u1"`. -/
theorem cancelSubscription_additionalData_sorted :
    (∀ cfg s u d ids appUrl o, s.user = some u → truthyStr s.deviceId = some d →
      ∃ rest, (cancelSubscription cfg s ids appUrl o).2.1 =
        Effect.getAuthHeaders d (some (cancelAdditionalData u.id ids)) :: rest) ∧
    (∀ uid ids, (List.insertionSort strLe (uid :: ids)).Perm (uid :: ids) ∧
      List.Sorted strLe (List.insertionSort strLe (uid :: ids)) ∧
      cancelAdditionalData uid ids =
        String.intercalate "," (List.insertionSort strLe (uid :: ids))) ∧
    (∀ uid ids1 ids2, ids1.Perm ids2 →
      cancelAdditionalData uid ids1 = cancelAdditionalData uid ids2) ∧
    cancelAdditionalData "u1" ["s2", "s1"] = "s1,s2,u1" := by
  haveI hTot : IsTotal String strLe := ⟨strLe_total⟩
  haveI hTrans : IsTrans String strLe := ⟨fun _ _ _ => strLe_trans⟩
  haveI hAnti : IsAntisymm String strLe := ⟨fun _ _ => strLe_antisymm⟩
  refine ⟨?_, ?_, ?_, by decide⟩
  · intro cfg s u d ids appUrl o hu hd
    rcases o with ⟨oauth, oresp, oro⟩
    cases oauth with
    | error e =>
      exact ⟨[], by simp [cancelSubscription, hu, hd]⟩
    | ok hdrs =>
      obtain ⟨t, ht⟩ := finishCancel_effects cfg { s with error := none }
        [Effect.getAuthHeaders d (some (cancelAdditionalData u.id ids)),
         Effect.httpDelete (baseUrl cfg ++ "/api/v1/subscription")
           { contentType := "application/json", signature := some hdrs.signature,
             timestamp := some hdrs.timestamp }
           { userId := u.id, appId := cfg.appId, subscriptionIds := ids,
             deviceId := some d, signatureCallbackUrl := none,
             useSafariFallback := none }]
        ⟨Except.ok hdrs, oresp, oro⟩
      refine ⟨Effect.httpDelete (baseUrl cfg ++ "/api/v1/subscription")
        { contentType := "application/json", signature := some hdrs.signature,
          timestamp := some hdrs.timestamp }
        { userId := u.id, appId := cfg.appId, subscriptionIds := ids,
          deviceId := some d, signatureCallbackUrl := none,
          useSafariFallback := none } :: t, ?_⟩
      have hcs : (cancelSubscription cfg s ids appUrl ⟨Except.ok hdrs, oresp, oro⟩).2.1 =
          (finishCancel cfg { s with error := none }
            [Effect.getAuthHeaders d (some (cancelAdditionalData u.id ids)),
             Effect.httpDelete (baseUrl cfg ++ "/api/v1/subscription")
               { contentType := "application/json", signature := some hdrs.signature,
                 timestamp := some hdrs.timestamp }
               { userId := u.id, appId := cfg.appId, subscriptionIds := ids,
                 deviceId := some d, signatureCallbackUrl := none,
                 useSafariFallback := none }]
            ⟨Except.ok hdrs, oresp, oro⟩).2.1 := by
        simp [cancelSubscription, hu, hd]
      rw [hcs, ht]
      rfl
  · intro uid ids
    exact ⟨List.perm_insertionSort strLe _, List.sorted_insertionSort strLe _, rfl⟩
  · intro uid ids1 ids2 hperm
    unfold cancelAdditionalData
    congr 1
    exact List.eq_of_perm_of_sorted
      ((List.perm_insertionSort strLe _).trans
        ((hperm.cons uid).trans (List.perm_insertionSort strLe _).symm))
      (List.sorted_insertionSort strLe _) (List.sorted_insertionSort strLe _)

/-- Witness for C2 at a concrete state and a concrete permutation. -/
theorem cancelSubscription_additionalData_sorted_witness :
    (∃ rest, (cancelSubscription (Config.mk "https://x" "a" none)
        (BridgeState.mk false (some (UtilsioUser.mk "u1" none none [] "t0"))
          (some "d1") none true none)
        ["s2", "s1"] none
        ⟨Except.error "boom", FetchResult.httpError 500 "",
         ⟨Except.error "boom", FetchResult.httpError 500 ""⟩⟩).2.1 =
      Effect.getAuthHeaders "d1" (some (cancelAdditionalData "u1" ["s2", "s1"])) :: rest) ∧
    cancelAdditionalData "u1" ["s1", "s2"] = cancelAdditionalData "u1" ["s2", "s1"] :=
  ⟨cancelSubscription_additionalData_sorted.1 (Config.mk "https://x" "a" none)
      (BridgeState.mk false (some (UtilsioUser.mk "u1" none none [] "t0"))
        (some "d1") none true none)
      (UtilsioUser.mk "u1" none none [] "t0") "d1" ["s2", "s1"] none
      ⟨Except.error "boom", FetchResult.httpError 500 "",
       ⟨Except.error "boom", FetchResult.httpError 500 ""⟩⟩ rfl rfl,
   cancelSubscription_additionalData_sorted.2.2.1 "u1" ["s1", "s2"] ["s2", "s1"]
     (List.Perm.swap "s2" "s1" [])⟩

/-- C6: `refresh()` never propagates an exception (its result is always
`ok`), it ends with `loading=false` on success and on failure alike, the
underlying fetch runs on a state whose `loading` was first set to `true`
(the traced effects are exactly those of `getSubscription` on that state),
any message thrown by the fetch is recorded verbatim in the `error` field,
and a successful fetch leaves the fetched state except for `loading`. -/
theorem refresh_swallows_errors :
    ∀ (cfg : Config) (s : BridgeState) (o : GetOracle),
      (refresh cfg s o).2.2 = Except.ok () ∧
      (refresh cfg s o).1.loading = false ∧
      (refresh cfg s o).2.1 = (getSubscription cfg { s with loading := true } o).2.1 ∧
      (∀ msg, (getSubscription cfg { s with loading := true } o).2.2 = Except.error msg →
        (refresh cfg s o).1.error = some msg) ∧
      (∀ v, (getSubscription cfg { s with loading := true } o).2.2 = Except.ok v →
        (refresh cfg s o).1 =
          { (getSubscription cfg { s with loading := true } o).1 with loading := false }) := by
  intro cfg s o
  rcases hg : getSubscription cfg { s with loading := true } o with ⟨s1, effs, res⟩
  cases res with
  | ok v =>
    refine ⟨by simp [refresh, hg], by simp [refresh, hg], by simp [refresh, hg], ?_, ?_⟩
    · intro msg hmsg
      simp at hmsg
    · intro w hw
      simp [refresh, hg]
  | error e =>
    refine ⟨by simp [refresh, hg], by simp [refresh, hg], by simp [refresh, hg], ?_, ?_⟩
    · intro msg hmsg
      simp at hmsg
      subst hmsg
      simp [refresh, hg]
    · intro w hw
      simp at hw

/-- Witness for C6: a fetch that throws is swallowed into `error` and leaves
`loading=false`. -/
theorem refresh_swallows_errors_witness :
    (refresh (Config.mk "https://x" "a" none)
      (BridgeState.mk false none (some "d") none false none)
      ⟨Except.error "boom", FetchResult.httpError 500 ""⟩).1.error = some "boom" ∧
    (refresh (Config.mk "https://x" "a" none)
      (BridgeState.mk false none (some "d") none false none)
      ⟨Except.error "boom", FetchResult.httpError 500 ""⟩).1.loading = false :=
  ⟨(refresh_swallows_errors (Config.mk "https://x" "a" none)
      (BridgeState.mk false none (some "d") none false none)
      ⟨Except.error "boom", FetchResult.httpError 500 ""⟩).2.2.2.1 "boom" rfl,
   (refresh_swallows_errors (Config.mk "https://x" "a" none)
      (BridgeState.mk false none (some "d") none false none)
      ⟨Except.error "boom", FetchResult.httpError 500 ""⟩).2.1⟩

/-- C5 counterexample: a successful response whose subscription carries the
non-null cancellation timestamp `""` is nevertheless surfaced (JavaScript
`!payload.subscription.cancelledAt` is truthiness, not a null check), so
`currentSubscription` is not `null` as the claim requires. -/
theorem getSubscription_empty_cancelledAt_surfaced :
    ((some "" : Option String) ≠ none) ∧
    (getSubscription (Config.mk "https://x" "a" none)
      (BridgeState.mk false none (some "d") none true none)
      ⟨Except.ok (AuthHeaders.mk "sig" "ts"),
       FetchResult.ok (SubPayload.mk true
         (some (RawSubscription.mk "s" "1" "c" (some ""))) none)⟩).1.currentSubscription =
      some (UtilsioSubscription.mk "s" "1" "c" none true) := by
  exact ⟨by decide, rfl⟩

/-- C5 (amended): a fetched subscription is surfaced exactly when its
`cancelledAt` is absent, null or the empty string (JavaScript falsiness); a
non-null, non-empty `cancelledAt` yields `currentSubscription = null`, and
the surfaced record is the normalized copy. -/
theorem getSubscription_cancelled_filter :
    ∀ cfg s o d hdrs p,
      truthyStr s.deviceId = some d →
      o.auth = Except.ok hdrs →
      o.response = FetchResult.ok p →
      p.success = true →
      (∀ sub, p.subscription = some sub →
        ((sub.cancelledAt = none ∨ sub.cancelledAt = some "" →
          (getSubscription cfg s o).1.currentSubscription = some (toActiveSubscription sub) ∧
          (getSubscription cfg s o).2.2 = Except.ok (some (toActiveSubscription sub))) ∧
         (∀ c, sub.cancelledAt = some c → c ≠ "" →
          (getSubscription cfg s o).1.currentSubscription = none ∧
          (getSubscription cfg s o).2.2 = Except.ok none))) ∧
      (p.subscription = none →
        (getSubscription cfg s o).1.currentSubscription = none ∧
        (getSubscription cfg s o).2.2 = Except.ok none) := by
  intro cfg s o d hdrs p hd hauth hresp hsucc
  rcases o with ⟨oauth, oresp⟩
  cases hauth
  cases hresp
  constructor
  · intro sub hsub
    constructor
    · intro hfalsy
      have hf : jsFalsyOptStr sub.cancelledAt = true := by
        rcases hfalsy with h | h
        · simp [jsFalsyOptStr, h]
        · simp [jsFalsyOptStr, h]
          rfl
      constructor
      · simp [getSubscription, hd, hsucc, hsub, hf]
      · simp [getSubscription, hd, hsucc, hsub, hf]
    · intro c hc hcne
      have hf : jsFalsyOptStr sub.cancelledAt = false := by
        simp [jsFalsyOptStr, hc]
        cases he : c.isEmpty
        · rfl
        · exact absurd ((String.isEmpty_iff _).mp he) hcne
      constructor
      · simp [getSubscription, hd, hsucc, hsub, hf]
      · simp [getSubscription, hd, hsucc, hsub, hf]
  · intro hsub
    constructor
    · simp [getSubscription, hd, hsucc, hsub]
    · simp [getSubscription, hd, hsucc, hsub]

/-- Witness for the amended C5 at a concrete non-empty `cancelledAt`. -/
theorem getSubscription_cancelled_filter_witness :
    (getSubscription (Config.mk "https://x" "a" none)
      (BridgeState.mk false none (some "d") none true none)
      ⟨Except.ok (AuthHeaders.mk "sig" "ts"),
       FetchResult.ok (SubPayload.mk true
         (some (RawSubscription.mk "s" "1" "c" (some "2024-01-01"))) none)⟩).1.currentSubscription
      = none :=
  (((getSubscription_cancelled_filter (Config.mk "https://x" "a" none)
      (BridgeState.mk false none (some "d") none true none)
      ⟨Except.ok (AuthHeaders.mk "sig" "ts"),
       FetchResult.ok (SubPayload.mk true
         (some (RawSubscription.mk "s" "1" "c" (some "2024-01-01"))) none)⟩
      "d" (AuthHeaders.mk "sig" "ts")
      (SubPayload.mk true (some (RawSubscription.mk "s" "1" "c" (some "2024-01-01"))) none)
      rfl rfl rfl rfl).1
      (RawSubscription.mk "s" "1" "c" (some "2024-01-01")) rfl).2
    "2024-01-01" rfl (by decide)).1

/-! ### Cancel paths (C4, C7) -/

theorem refresh_effects_eq (cfg : Config) (s : BridgeState) (o : GetOracle) :
    (refresh cfg s o).2.1 = (getSubscription cfg { s with loading := true } o).2.1 := by
  rcases hg : getSubscription cfg { s with loading := true } o with ⟨s1, effs, res⟩
  cases res <;> simp [refresh, hg]

theorem getSubscription_effects_falsy (cfg : Config) (s : BridgeState) (o : GetOracle)
    (h : truthyStr s.deviceId = none) : (getSubscription cfg s o).2.1 = [] := by
  unfold getSubscription
  simp [h]

theorem refresh_effects_falsy (cfg : Config) (s : BridgeState) (o : GetOracle)
    (h : truthyStr s.deviceId = none) : (refresh cfg s o).2.1 = [] := by
  rw [refresh_effects_eq]
  exact getSubscription_effects_falsy cfg { s with loading := true } o h

/-- With a falsy `deviceId`, the trailing `refresh()` of a successful cancel
adds no requests, so `finishCancel` traces exactly the request it was given. -/
theorem finishCancel_effects_falsy (cfg : Config) (s0 : BridgeState) (effs : List Effect)
    (o : CancelOracle) (h : truthyStr s0.deviceId = none) :
    (finishCancel cfg s0 effs o).2.1 = effs := by
  unfold finishCancel
  rcases o with ⟨oauth, oresp, oro⟩
  cases oresp with
  | httpError st tx => simp
  | ok payload =>
    cases hs : payload.success
    · simp [hs]
    · rcases hr : refresh cfg s0 oro with ⟨s1, reffs, v⟩
      have hre : reffs = [] := by
        have he := refresh_effects_falsy cfg s0 oro h
        rw [hr] at he
        exact he
      simp [hs, hr, hre]

/-- C4: with the user known, `cancelSubscription` takes exactly one of three
routes.  With both `deviceId` and `appUrl` absent it throws the hard error
with an empty effect trace (no fetch, no signing-callback call); with a
truthy `deviceId` it signs client-side (the signing call precedes a single
DELETE whose body carries `deviceId` and no callback URL); with `deviceId`
absent but `appUrl` truthy it issues exactly one unsigned DELETE whose body
carries `signatureCallbackUrl` derived from `appUrl` and the Safari-fallback
flag, and never consults the signing callback. -/
theorem cancelSubscription_requires_deviceId_or_appUrl :
    ∀ cfg s u ids appUrl o,
      s.user = some u →
      ((truthyStr s.deviceId = none → truthyStr appUrl = none →
        (cancelSubscription cfg s ids appUrl o).2.1 = ([] : List Effect) ∧
        (cancelSubscription cfg s ids appUrl o).2.2 =
          Except.error "Either deviceId or appUrl is required to cancel subscription") ∧
       (∀ d, truthyStr s.deviceId = some d →
        (∀ e, o.auth = Except.error e →
          (cancelSubscription cfg s ids appUrl o).2.1 =
            [Effect.getAuthHeaders d (some (cancelAdditionalData u.id ids))] ∧
          (cancelSubscription cfg s ids appUrl o).2.2 = Except.error e) ∧
        (∀ hdrs, o.auth = Except.ok hdrs →
          ∃ rest, (cancelSubscription cfg s ids appUrl o).2.1 =
            Effect.getAuthHeaders d (some (cancelAdditionalData u.id ids)) ::
            Effect.httpDelete (baseUrl cfg ++ "/api/v1/subscription")
              (DeleteHeaders.mk "application/json" (some hdrs.signature) (some hdrs.timestamp))
              (CancelBody.mk u.id cfg.appId ids (some d) none none) :: rest)) ∧
       (∀ a, truthyStr s.deviceId = none → truthyStr appUrl = some a →
        (cancelSubscription cfg s ids appUrl o).2.1 =
          [Effect.httpDelete (baseUrl cfg ++ "/api/v1/subscription")
            (DeleteHeaders.mk "application/json" none none)
            (CancelBody.mk u.id cfg.appId ids none
              (some (a ++ "/api/signature-callback")) (some true))])) := by
  intro cfg s u ids appUrl o hu
  rcases o with ⟨oauth, oresp, oro⟩
  refine ⟨?_, ?_, ?_⟩
  · intro hd ha
    constructor
    · simp [cancelSubscription, hu, hd, ha]
    · simp [cancelSubscription, hu, hd, ha]
  · intro d hd
    constructor
    · intro e he
      subst he
      constructor
      · simp [cancelSubscription, hu, hd]
      · simp [cancelSubscription, hu, hd]
    · intro hdrs hh
      subst hh
      obtain ⟨t, ht⟩ := finishCancel_effects cfg { s with error := none }
        [Effect.getAuthHeaders d (some (cancelAdditionalData u.id ids)),
         Effect.httpDelete (baseUrl cfg ++ "/api/v1/subscription")
           (DeleteHeaders.mk "application/json" (some hdrs.signature) (some hdrs.timestamp))
           (CancelBody.mk u.id cfg.appId ids (some d) none none)]
        ⟨Except.ok hdrs, oresp, oro⟩
      refine ⟨t, ?_⟩
      have hcs : (cancelSubscription cfg s ids appUrl ⟨Except.ok hdrs, oresp, oro⟩).2.1 =
          (finishCancel cfg { s with error := none }
            [Effect.getAuthHeaders d (some (cancelAdditionalData u.id ids)),
             Effect.httpDelete (baseUrl cfg ++ "/api/v1/subscription")
               (DeleteHeaders.mk "application/json" (some hdrs.signature) (some hdrs.timestamp))
               (CancelBody.mk u.id cfg.appId ids (some d) none none)]
            ⟨Except.ok hdrs, oresp, oro⟩).2.1 := by
        simp [cancelSubscription, hu, hd]
      rw [hcs, ht]
      rfl
  · intro a hd ha
    have hfe := finishCancel_effects_falsy cfg { s with error := none }
      [Effect.httpDelete (baseUrl cfg ++ "/api/v1/subscription")
        (DeleteHeaders.mk "application/json" none none)
        (CancelBody.mk u.id cfg.appId ids none
          (some (a ++ "/api/signature-callback")) (some true))]
      ⟨oauth, oresp, oro⟩ hd
    have hcs : (cancelSubscription cfg s ids appUrl ⟨oauth, oresp, oro⟩).2.1 =
        (finishCancel cfg { s with error := none }
          [Effect.httpDelete (baseUrl cfg ++ "/api/v1/subscription")
            (DeleteHeaders.mk "application/json" none none)
            (CancelBody.mk u.id cfg.appId ids none
              (some (a ++ "/api/signature-callback")) (some true))]
          ⟨oauth, oresp, oro⟩).2.1 := by
      simp [cancelSubscription, hu, hd, ha]
    rw [hcs, hfe]

/-- Witness for C4: with user known but neither `deviceId` nor `appUrl`,
the call throws and no request or signing call is traced. -/
theorem cancelSubscription_requires_deviceId_or_appUrl_witness :
    (cancelSubscription (Config.mk "https://x" "a" none)
      (BridgeState.mk false (some (UtilsioUser.mk "u1" none none [] "t0")) none none true none)
      ["s1"] none
      ⟨Except.error "never", FetchResult.httpError 500 "",
       ⟨Except.error "never", FetchResult.httpError 500 ""⟩⟩).2.1 = ([] : List Effect) ∧
    (cancelSubscription (Config.mk "https://x" "a" none)
      (BridgeState.mk false (some (UtilsioUser.mk "u1" none none [] "t0")) none none true none)
      ["s1"] none
      ⟨Except.error "never", FetchResult.httpError 500 "",
       ⟨Except.error "never", FetchResult.httpError 500 ""⟩⟩).2.2 =
      Except.error "Either deviceId or appUrl is required to cancel subscription" :=
  (cancelSubscription_requires_deviceId_or_appUrl (Config.mk "https://x" "a" none)
    (BridgeState.mk false (some (UtilsioUser.mk "u1" none none [] "t0")) none none true none)
    (UtilsioUser.mk "u1" none none [] "t0") ["s1"] none
    ⟨Except.error "never", FetchResult.httpError 500 "",
     ⟨Except.error "never", FetchResult.httpError 500 ""⟩⟩ rfl).1 rfl rfl

/-- The `results?.filter(r => !r.success).map(r => r.error).filter(Boolean)[0]`
chain picks the error of the first failed entry that carries a truthy error. -/
theorem head_filter_filterMap_eq_find (rs : List CancelResultItem) :
    (((rs.filter (fun r => !r.success)).filterMap CancelResultItem.error).filter
        (fun e => !e.isEmpty)).head?
      = (rs.find? (fun r => !r.success && !((r.error.getD "").isEmpty))).bind
          CancelResultItem.error := by
  have hemp : ("" : String).isEmpty = true := rfl
  induction rs with
  | nil => rfl
  | cons r t ih =>
    cases hs : r.success
    · cases he : r.error with
      | none =>
        simp [List.filter_cons, List.find?_cons, hs, he, ih, hemp]
      | some e =>
        cases hee : e.isEmpty
        · simp [List.filter_cons, List.find?_cons, hs, he, hee]
        · simp [List.filter_cons, List.find?_cons, hs, he, hee, ih]
    · simp [List.filter_cons, List.find?_cons, hs, ih]

theorem optList_map_bind_head (results : Option (List CancelResultItem))
    (f : List CancelResultItem → List String) (hf : f [] = []) :
    (results.map f).bind List.head? = (f (results.getD [])).head? := by
  cases results
  · simp [hf]
  · simp

/-- Response handling of a failed cancel: the thrown message follows the
first-item-error / top-level-error / generic-fallback priority. -/
theorem finishCancel_error_priority (cfg : Config) (s0 : BridgeState) (effs : List Effect)
    (o : CancelOracle) (payload : CancelPayload)
    (hresp : o.response = FetchResult.ok payload) (hfail : payload.success = false) :
    ∃ msg, (finishCancel cfg s0 effs o).2.2 = Except.error msg ∧
      ((∃ r, (payload.results.getD []).find?
          (fun r => !r.success && !((r.error.getD "").isEmpty)) = some r ∧
          r.error = some msg) ∨
       ((payload.results.getD []).find?
          (fun r => !r.success && !((r.error.getD "").isEmpty)) = none ∧
        jsTruthy payload.error = true ∧ payload.error = some msg) ∨
       ((payload.results.getD []).find?
          (fun r => !r.success && !((r.error.getD "").isEmpty)) = none ∧
        jsTruthy payload.error = false ∧ msg = "Failed to cancel subscription")) := by
  rcases o with ⟨oauth, oresp, oro⟩
  cases hresp
  have hbind : ((payload.results.map (fun rs =>
      ((rs.filter (fun r => !r.success)).filterMap CancelResultItem.error).filter
        (fun e => !e.isEmpty))).bind List.head?)
      = ((payload.results.getD []).find?
          (fun r => !r.success && !((r.error.getD "").isEmpty))).bind
          CancelResultItem.error := by
    rw [optList_map_bind_head _ _ rfl, head_filter_filterMap_eq_find]
  have hval : (finishCancel cfg s0 effs ⟨oauth, FetchResult.ok payload, oro⟩).2.2 =
      Except.error (jsOrOpt ((payload.results.map (fun rs =>
        ((rs.filter (fun r => !r.success)).filterMap CancelResultItem.error).filter
          (fun e => !e.isEmpty))).bind List.head?)
        (jsOrOpt payload.error "Failed to cancel subscription")) := by
    simp [finishCancel, hfail]
  rw [hbind] at hval
  cases hF : (payload.results.getD []).find?
      (fun r => !r.success && !((r.error.getD "").isEmpty)) with
  | some r =>
    have hpred := List.find?_some hF
    have hok2 : (r.error.getD "").isEmpty = false := by
      rcases (Bool.and_eq_true _ _).mp hpred with ⟨h1, h2⟩
      simpa using h2
    cases hre : r.error with
    | none =>
      rw [hre] at hok2
      exact absurd hok2 (by decide)
    | some e =>
      have hene : e.isEmpty = false := by
        rw [hre] at hok2
        simpa using hok2
      refine ⟨e, ?_, Or.inl ⟨r, rfl, hre⟩⟩
      rw [hval, hF]
      simp [hre, jsOrOpt, jsOr, hene]
  | none =>
    rw [hF] at hval
    cases hT : jsTruthy payload.error with
    | true =>
      cases hpe : payload.error with
      | none =>
        exfalso
        rw [hpe] at hT
        simp [jsTruthy] at hT
      | some v =>
        have hvne : v.isEmpty = false := by
          rw [hpe] at hT
          simpa [jsTruthy] using hT
        refine ⟨v, ?_, Or.inr (Or.inl ⟨rfl, rfl, rfl⟩)⟩
        rw [hval, hpe]
        simp [jsOrOpt, jsOr, hvne]
    | false =>
      refine ⟨"Failed to cancel subscription", ?_, Or.inr (Or.inr ⟨rfl, rfl, rfl⟩)⟩
      rw [hval]
      cases hpe : payload.error with
      | none => simp [jsOrOpt]
      | some v =>
        have hvem : v.isEmpty = true := by
          rw [hpe] at hT
          simpa [jsTruthy] using hT
        simp [jsOrOpt, jsOr, hvem]

/-- Response handling of a successful cancel: `refresh()` runs afterwards. -/
theorem finishCancel_success (cfg : Config) (s0 : BridgeState) (effs : List Effect)
    (o : CancelOracle) (payload : CancelPayload)
    (hresp : o.response = FetchResult.ok payload) (hs : payload.success = true) :
    (finishCancel cfg s0 effs o).2.2 = Except.ok () ∧
    (finishCancel cfg s0 effs o).1 = (refresh cfg s0 o.refreshOracle).1 ∧
    (finishCancel cfg s0 effs o).2.1 = effs ++ (refresh cfg s0 o.refreshOracle).2.1 := by
  rcases o with ⟨oauth, oresp, oro⟩
  cases hresp
  rcases hr : refresh cfg s0 oro with ⟨s1, reffs, v⟩
  refine ⟨?_, ?_, ?_⟩ <;> simp [finishCancel, hs, hr]

/-- C7: whenever a cancel DELETE was actually issued (either request shape)
and the response parsed, a non-success payload throws the first per-item
error found among failed `results` entries, else the (truthy) top-level
`error`, else the generic fallback — in that order; a success payload throws
nothing and triggers `refresh()`, whose state change and trailing requests
make up the tail of the operation. -/
theorem cancelSubscription_error_priority :
    ∀ cfg s u ids appUrl o p,
      s.user = some u →
      o.response = FetchResult.ok p →
      ((∃ d hdrs, truthyStr s.deviceId = some d ∧ o.auth = Except.ok hdrs) ∨
       (truthyStr s.deviceId = none ∧ ∃ a, truthyStr appUrl = some a)) →
      ((p.success = false →
        ∃ msg, (cancelSubscription cfg s ids appUrl o).2.2 = Except.error msg ∧
          ((∃ r, (p.results.getD []).find?
              (fun r => !r.success && !((r.error.getD "").isEmpty)) = some r ∧
              r.error = some msg) ∨
           ((p.results.getD []).find?
              (fun r => !r.success && !((r.error.getD "").isEmpty)) = none ∧
            jsTruthy p.error = true ∧ p.error = some msg) ∨
           ((p.results.getD []).find?
              (fun r => !r.success && !((r.error.getD "").isEmpty)) = none ∧
            jsTruthy p.error = false ∧ msg = "Failed to cancel subscription"))) ∧
       (p.success = true →
        (cancelSubscription cfg s ids appUrl o).2.2 = Except.ok () ∧
        (cancelSubscription cfg s ids appUrl o).1 =
          (refresh cfg { s with error := none } o.refreshOracle).1 ∧
        ∃ pre, (cancelSubscription cfg s ids appUrl o).2.1 =
          pre ++ (refresh cfg { s with error := none } o.refreshOracle).2.1)) := by
  intro cfg s u ids appUrl o p hu hresp hpath
  rcases o with ⟨oauth, oresp, oro⟩
  have hex : ∃ effs, cancelSubscription cfg s ids appUrl ⟨oauth, oresp, oro⟩ =
      finishCancel cfg { s with error := none } effs ⟨oauth, oresp, oro⟩ := by
    rcases hpath with ⟨d, hdrs, hd, hh⟩ | ⟨hd, a, ha⟩
    · cases hh
      refine ⟨[Effect.getAuthHeaders d (some (cancelAdditionalData u.id ids)),
        Effect.httpDelete (baseUrl cfg ++ "/api/v1/subscription")
          (DeleteHeaders.mk "application/json" (some hdrs.signature) (some hdrs.timestamp))
          (CancelBody.mk u.id cfg.appId ids (some d) none none)], ?_⟩
      simp [cancelSubscription, hu, hd]
    · refine ⟨[Effect.httpDelete (baseUrl cfg ++ "/api/v1/subscription")
          (DeleteHeaders.mk "application/json" none none)
          (CancelBody.mk u.id cfg.appId ids none
            (some (a ++ "/api/signature-callback")) (some true))], ?_⟩
      simp [cancelSubscription, hu, hd, ha]
  obtain ⟨effs, hcs⟩ := hex
  constructor
  · intro hfail
    rw [hcs]
    exact finishCancel_error_priority cfg { s with error := none } effs
      ⟨oauth, oresp, oro⟩ p hresp hfail
  · intro hsucc
    have h3 := finishCancel_success cfg { s with error := none } effs
      ⟨oauth, oresp, oro⟩ p hresp hsucc
    rw [hcs]
    exact ⟨h3.1, h3.2.1, ⟨effs, h3.2.2⟩⟩

/-- Witness for C7: a failed payload with no `results` array and a truthy
top-level error throws exactly that top-level error. -/
theorem cancelSubscription_error_priority_witness :
    (cancelSubscription (Config.mk "https://x" "a" none)
      (BridgeState.mk false (some (UtilsioUser.mk "u1" none none [] "t0"))
        (some "d") none true none)
      ["s1"] none
      ⟨Except.ok (AuthHeaders.mk "sig" "ts"),
       FetchResult.ok (CancelPayload.mk false none (some "top-err")),
       ⟨Except.error "never", FetchResult.httpError 500 ""⟩⟩).2.2 =
      Except.error "top-err" := by
  obtain ⟨msg, hmsg, hpri⟩ :=
    (cancelSubscription_error_priority (Config.mk "https://x" "a" none)
      (BridgeState.mk false (some (UtilsioUser.mk "u1" none none [] "t0"))
        (some "d") none true none)
      (UtilsioUser.mk "u1" none none [] "t0") ["s1"] none
      ⟨Except.ok (AuthHeaders.mk "sig" "ts"),
       FetchResult.ok (CancelPayload.mk false none (some "top-err")),
       ⟨Except.error "never", FetchResult.httpError 500 ""⟩⟩
      (CancelPayload.mk false none (some "top-err")) rfl rfl
      (Or.inl ⟨"d", AuthHeaders.mk "sig" "ts", rfl, rfl⟩)).1 rfl
  rcases hpri with ⟨r, hr, _⟩ | ⟨_, _, he⟩ | ⟨_, ht, _⟩
  · simp at hr
  · injection he with h
    rw [← h] at hmsg
    exact hmsg
  · exact absurd ht (by decide)

/-! ### Subscription-normalization invariant (C9) -/

theorem getSubscription_preserves_subInvariant (cfg : Config) (s : BridgeState)
    (o : GetOracle) (h : subInvariant s) : subInvariant (getSubscription cfg s o).1 := by
  rcases o with ⟨oauth, oresp⟩
  cases hd : truthyStr s.deviceId with
  | none =>
    intro sub hsub
    have hcur : (getSubscription cfg s ⟨oauth, oresp⟩).1.currentSubscription = none := by
      simp [getSubscription, hd]
    rw [hcur] at hsub
    exact Option.noConfusion hsub
  | some d =>
    cases oauth with
    | error e =>
      intro sub hsub
      have hcur : (getSubscription cfg s ⟨Except.error e, oresp⟩).1.currentSubscription =
          s.currentSubscription := by
        simp [getSubscription, hd]
      rw [hcur] at hsub
      exact h sub hsub
    | ok hdrs =>
      cases oresp with
      | httpError st tx =>
        intro sub hsub
        have hcur : (getSubscription cfg s
            ⟨Except.ok hdrs, FetchResult.httpError st tx⟩).1.currentSubscription =
            s.currentSubscription := by
          simp [getSubscription, hd]
        rw [hcur] at hsub
        exact h sub hsub
      | ok payload =>
        cases hps : payload.success
        · intro sub hsub
          have hcur : (getSubscription cfg s
              ⟨Except.ok hdrs, FetchResult.ok payload⟩).1.currentSubscription =
              s.currentSubscription := by
            simp [getSubscription, hd, hps]
          rw [hcur] at hsub
          exact h sub hsub
        · cases hsp : payload.subscription with
          | none =>
            intro sub hsub
            have hcur : (getSubscription cfg s
                ⟨Except.ok hdrs, FetchResult.ok payload⟩).1.currentSubscription = none := by
              simp [getSubscription, hd, hps, hsp]
            rw [hcur] at hsub
            exact Option.noConfusion hsub
          | some raw =>
            cases hf : jsFalsyOptStr raw.cancelledAt
            · intro sub hsub
              have hcur : (getSubscription cfg s
                  ⟨Except.ok hdrs, FetchResult.ok payload⟩).1.currentSubscription = none := by
                simp [getSubscription, hd, hps, hsp, hf]
              rw [hcur] at hsub
              exact Option.noConfusion hsub
            · intro sub hsub
              have hcur : (getSubscription cfg s
                  ⟨Except.ok hdrs, FetchResult.ok payload⟩).1.currentSubscription =
                  some (toActiveSubscription raw) := by
                simp [getSubscription, hd, hps, hsp, hf]
              rw [hcur] at hsub
              injection hsub with hs2
              rw [← hs2]
              exact ⟨rfl, rfl⟩

theorem refresh_preserves_subInvariant (cfg : Config) (s : BridgeState) (o : GetOracle)
    (h : subInvariant s) : subInvariant (refresh cfg s o).1 := by
  have h' : subInvariant ({ s with loading := true } : BridgeState) := fun sub hsub => h sub hsub
  have h1 := getSubscription_preserves_subInvariant cfg { s with loading := true } o h'
  rcases hg : getSubscription cfg { s with loading := true } o with ⟨s1, effs, res⟩
  rw [hg] at h1
  cases res with
  | ok v =>
    intro sub hsub
    have hcur : (refresh cfg s o).1.currentSubscription = s1.currentSubscription := by
      simp [refresh, hg]
    rw [hcur] at hsub
    exact h1 sub hsub
  | error e =>
    intro sub hsub
    have hcur : (refresh cfg s o).1.currentSubscription = s1.currentSubscription := by
      simp [refresh, hg]
    rw [hcur] at hsub
    exact h1 sub hsub

theorem deviceIdEffect_preserves_subInvariant (cfg : Config) (s : BridgeState)
    (o : GetOracle) (h : subInvariant s) : subInvariant (deviceIdEffect cfg s o).1 := by
  cases hd : truthyStr s.deviceId with
  | none =>
    intro sub hsub
    have hcur : (deviceIdEffect cfg s o).1.currentSubscription = none := by
      simp [deviceIdEffect, hd]
    rw [hcur] at hsub
    exact Option.noConfusion hsub
  | some d =>
    have hr := refresh_preserves_subInvariant cfg s o h
    rcases hg : refresh cfg s o with ⟨s1, effs, res⟩
    rw [hg] at hr
    intro sub hsub
    have hcur : (deviceIdEffect cfg s o).1 = s1 := by
      simp [deviceIdEffect, hd, hg]
    rw [hcur] at hsub
    exact hr sub hsub

theorem finishCancel_preserves_subInvariant (cfg : Config) (s0 : BridgeState)
    (effs : List Effect) (o : CancelOracle) (h : subInvariant s0) :
    subInvariant (finishCancel cfg s0 effs o).1 := by
  rcases o with ⟨oauth, oresp, oro⟩
  cases oresp with
  | httpError st tx =>
    intro sub hsub
    have hcur : (finishCancel cfg s0 effs
        ⟨oauth, FetchResult.httpError st tx, oro⟩).1 = s0 := by
      simp [finishCancel]
    rw [hcur] at hsub
    exact h sub hsub
  | ok payload =>
    cases hs : payload.success
    · intro sub hsub
      have hcur : (finishCancel cfg s0 effs ⟨oauth, FetchResult.ok payload, oro⟩).1 = s0 := by
        simp [finishCancel, hs]
      rw [hcur] at hsub
      exact h sub hsub
    · have hr := refresh_preserves_subInvariant cfg s0 oro h
      rcases hg : refresh cfg s0 oro with ⟨s1, reffs, v⟩
      rw [hg] at hr
      intro sub hsub
      have hcur : (finishCancel cfg s0 effs ⟨oauth, FetchResult.ok payload, oro⟩).1 = s1 := by
        simp [finishCancel, hs, hg]
      rw [hcur] at hsub
      exact hr sub hsub

theorem cancelSubscription_preserves_subInvariant (cfg : Config) (s : BridgeState)
    (ids : List String) (appUrl : Option String) (o : CancelOracle)
    (h : subInvariant s) : subInvariant (cancelSubscription cfg s ids appUrl o).1 := by
  have h0 : subInvariant ({ s with error := none } : BridgeState) := fun sub hsub => h sub hsub
  rcases o with ⟨oauth, oresp, oro⟩
  cases hu : s.user with
  | none =>
    intro sub hsub
    have hcur : (cancelSubscription cfg s ids appUrl ⟨oauth, oresp, oro⟩).1 =
        { s with error := none } := by
      simp [cancelSubscription, hu]
    rw [hcur] at hsub
    exact h0 sub hsub
  | some user =>
    cases hd : truthyStr s.deviceId with
    | some d =>
      cases oauth with
      | error e =>
        intro sub hsub
        have hcur : (cancelSubscription cfg s ids appUrl ⟨Except.error e, oresp, oro⟩).1 =
            { s with error := none } := by
          simp [cancelSubscription, hu, hd]
        rw [hcur] at hsub
        exact h0 sub hsub
      | ok hdrs =>
        have hfc := finishCancel_preserves_subInvariant cfg { s with error := none }
          [Effect.getAuthHeaders d (some (cancelAdditionalData user.id ids)),
           Effect.httpDelete (baseUrl cfg ++ "/api/v1/subscription")
             (DeleteHeaders.mk "application/json" (some hdrs.signature) (some hdrs.timestamp))
             (CancelBody.mk user.id cfg.appId ids (some d) none none)]
          ⟨Except.ok hdrs, oresp, oro⟩ h0
        intro sub hsub
        have hcur : (cancelSubscription cfg s ids appUrl ⟨Except.ok hdrs, oresp, oro⟩).1 =
            (finishCancel cfg { s with error := none }
              [Effect.getAuthHeaders d (some (cancelAdditionalData user.id ids)),
               Effect.httpDelete (baseUrl cfg ++ "/api/v1/subscription")
                 (DeleteHeaders.mk "application/json" (some hdrs.signature) (some hdrs.timestamp))
                 (CancelBody.mk user.id cfg.appId ids (some d) none none)]
              ⟨Except.ok hdrs, oresp, oro⟩).1 := by
          simp [cancelSubscription, hu, hd]
        rw [hcur] at hsub
        exact hfc sub hsub
    | none =>
      cases ha : truthyStr appUrl with
      | some a =>
        have hfc := finishCancel_preserves_subInvariant cfg { s with error := none }
          [Effect.httpDelete (baseUrl cfg ++ "/api/v1/subscription")
            (DeleteHeaders.mk "application/json" none none)
            (CancelBody.mk user.id cfg.appId ids none
              (some (a ++ "/api/signature-callback")) (some true))]
          ⟨oauth, oresp, oro⟩ h0
        intro sub hsub
        have hcur : (cancelSubscription cfg s ids appUrl ⟨oauth, oresp, oro⟩).1 =
            (finishCancel cfg { s with error := none }
              [Effect.httpDelete (baseUrl cfg ++ "/api/v1/subscription")
                (DeleteHeaders.mk "application/json" none none)
                (CancelBody.mk user.id cfg.appId ids none
                  (some (a ++ "/api/signature-callback")) (some true))]
              ⟨oauth, oresp, oro⟩).1 := by
          simp [cancelSubscription, hu, hd, ha]
        rw [hcur] at hsub
        exact hfc sub hsub
      | none =>
        intro sub hsub
        have hcur : (cancelSubscription cfg s ids appUrl ⟨oauth, oresp, oro⟩).1 =
            { s with error := none } := by
          simp [cancelSubscription, hu, hd, ha]
        rw [hcur] at hsub
        exact h0 sub hsub

theorem redirectToConfirm_state (cfg : Config) (s : BridgeState) (params : RedirectParams)
    (auth : Except String AuthHeaders) : (redirectToConfirm cfg s params auth).1 = s := by
  cases hd : truthyStr s.deviceId with
  | none => simp [redirectToConfirm, hd]
  | some d =>
    cases auth with
    | error e => simp [redirectToConfirm, hd]
    | ok hdrs => simp [redirectToConfirm, hd]

/-- C9: every state the session bridge can reach keeps the normalization
invariant: whenever `currentSubscription` is non-null it has
`cancelledAt = null` and `isActive = true`.  The invariant holds initially
and is preserved by every bridge transition — inbound messages, the config
and deviceId effects, `refresh`, `cancelSubscription` (whose only non-null
assignment is the normalized copy surfaced by the subscription fetch) and
`redirectToConfirm` — under arbitrary external responses. -/
theorem bridge_subscription_invariant :
    subInvariant initialState ∧
    ∀ cfg s s2, subInvariant s → Step cfg s s2 → subInvariant s2 := by
  constructor
  · intro sub hsub
    exact Option.noConfusion hsub
  · intro cfg s s2 h hstep
    cases hstep with
    | msg m => cases m <;> exact fun sub hsub => h sub hsub
    | configReset => exact fun sub hsub => h sub hsub
    | deviceEffect o => exact deviceIdEffect_preserves_subInvariant cfg s o h
    | refreshCall o => exact refresh_preserves_subInvariant cfg s o h
    | cancelCall ids appUrl o =>
      exact cancelSubscription_preserves_subInvariant cfg s ids appUrl o h
    | redirectCall params auth =>
      rw [redirectToConfirm_state]
      exact h

/-- Witness for C9: one concrete step from the initial state. -/
theorem bridge_subscription_invariant_witness :
    subInvariant (handleMessage initialState EmbedMessage.ready) :=
  bridge_subscription_invariant.2 (Config.mk "https://x" "a" none) initialState
    (handleMessage initialState EmbedMessage.ready)
    (fun sub hsub => Option.noConfusion hsub)
    (Step.msg EmbedMessage.ready)

end Utilsio
